import Mathlib

/-!
Shallow embedding of the tool-calling orchestration loop of the Todo AI
chatbot backend.

The embedded code is `OpenAIAgentRunner.run` (src/backend/agent/openai_runner.py)
and `ChatAgentRunner.process` (src/backend/services/agent_interface.py).
External effects — the two completion-API calls, the MCP tool server, the
presence of the API key, and whether the thread-pool worker finishes inside
the façade's 60-second budget — are modelled by an explicit environment
record `Env`; the Python functions become total Lean functions of that
environment and their ordinary arguments.

The data types `AgentContext`, `AgentResult` and `ToolCallRecord` live in
`agent/context.py`, which is not part of the repository snapshot; they are
modelled from the spec (section 3, DATA MODEL) as plain records.  JSON
values that flow through tool arguments are modelled by their string form,
and a tool result is modelled by its serialized form (the runner only ever
passes results through `json.dumps`; no property below inspects the
serialization itself).
-/

namespace TodoAgent

/-- A chat turn as supplied by the caller: a role and a text content.
Per the spec's data model a turn always carries both fields, so Python's
`msg.get("role", "user")` / `msg.get("content", "")` are plain field
accesses here. -/
structure Msg where
  role : String
  content : String
  deriving Repr, DecidableEq

/-- Modelled from the spec: `ToolCallRecord` of `agent/context.py` — an audit
entry with the tool name, the arguments minus the injected actor id, the
result, and a duration in milliseconds. -/
structure ToolCallRecord where
  tool_name : String
  parameters : List (String × String)
  result : String
  duration_ms : Nat
  deriving Repr, DecidableEq

/-- Modelled from the spec: `AgentResult` of `agent/context.py` — the single
value returned from one orchestration invocation. -/
structure AgentResult where
  success : Bool
  response : String
  tool_calls : List ToolCallRecord
  error : Option String
  language : String
  deriving Repr, DecidableEq

/-- Modelled from the spec: `AgentContext` of `agent/context.py` — the
request context with actor id, conversation id and the caller-supplied
message history. -/
structure AgentContext where
  user_id : String
  conversation_id : String
  messages : List Msg
  deriving Repr, DecidableEq

/-- Modelled from the spec: `AgentContext.from_request` builds the
per-request context from the caller's identifiers and history. -/
def AgentContext.from_request (user_id : String) (conversation_id : String)
    (messages : List Msg) : AgentContext :=
  ⟨user_id, conversation_id, messages⟩

/-- An exception escaping into `run`'s handlers: Python's
`except ValueError` branch fires exactly when `isValueError` is true
(`json.JSONDecodeError` is a `ValueError`); `except Exception` catches the
rest.  `msg` is `str(e)`. -/
structure Exc where
  isValueError : Bool
  msg : String
  deriving Repr, DecidableEq

instance instDecEqExcept {ε α : Type} [DecidableEq ε] [DecidableEq α] :
    DecidableEq (Except ε α) := fun x y =>
  match x, y with
  | .ok a, .ok b => decidable_of_iff (a = b) (by simp)
  | .ok _, .error _ => isFalse (fun h => Except.noConfusion h)
  | .error _, .ok _ => isFalse (fun h => Except.noConfusion h)
  | .error a, .error b => decidable_of_iff (a = b) (by simp)

/-- One tool call requested by the model's first response.  `arguments` is
the outcome of `json.loads(tool_call.function.arguments)`: `.ok` carries the
parsed argument object (string-valued entries), `.error` carries the
`JSONDecodeError` message raised on malformed JSON. -/
structure ToolCall where
  id : String
  name : String
  arguments : Except String (List (String × String))
  deriving Repr, DecidableEq

/-- The model's first-round message: optional direct text content plus the
list of requested tool calls (empty list = the falsy `tool_calls` branch). -/
structure AssistantMsg where
  content : Option String
  tool_calls : List ToolCall
  deriving Repr, DecidableEq

/-- The serialized output paired back to a tool call id before the second
completion call: `json.dumps(result)` on success, `json.dumps({"error":
str(e)})` on a dispatch failure (modelled by the carried message). -/
inductive ToolOutput where
  | ok (serialized : String)
  | err (msg : String)
  deriving Repr, DecidableEq

/-- The external world of one `process` invocation: the API-key check in
`_get_client`, the outcomes of the two completion calls, the MCP tool
server (a function of tool name, argument object and actor id), and whether
the façade's worker misses its 60-second budget. -/
structure Env where
  apiKeyMissing : Bool
  firstCall : Except Exc AssistantMsg
  mcpCall : String → List (String × String) → String → Except String String
  secondCall : Except Exc (Option String)
  workerTimesOut : Bool

/-- Python `str.lower()`, restricted to the per-character lowering that all
the classified substrings (pure ASCII) exercise. -/
def pyLower (s : String) : String :=
  ⟨s.data.map Char.toLower⟩

/-- Python's substring test `pat in s`: the pattern is a prefix of some
tail of the text. -/
def pyContains (s pat : String) : Bool :=
  s.data.tails.any (fun t => pat.data.isPrefixOf t)

/-- The fixed fallback of `ChatAgentRunner.process` when the history holds
no user-authored turn (agent_interface.py line 53). -/
def NOT_UNDERSTOOD_MSG : String :=
  "I didn't understand your request. Could you please try again?"

/-- The fixed message returned when the worker misses the 60-second budget
(agent_interface.py line 68). -/
def TIMEOUT_MSG : String :=
  "Request timed out. Please try again."

/-- Fallback text when the model answers directly with empty content
(openai_runner.py line 242). -/
def NO_TOOLS_FALLBACK : String :=
  "I'm here to help! What would you like to know?"

/-- Fallback text when the second completion call returns empty content
(openai_runner.py line 239). -/
def TOOLS_FALLBACK : String :=
  "Task completed successfully!"

/-- The `ValueError` message raised by `_get_client` when the API key is
absent (openai_runner.py lines 103-106). -/
def API_KEY_MISSING_MSG : String :=
  "OPENAI_API_KEY environment variable is not set. Please add it in Vercel Project Settings > Environment Variables."

/-- The tailored response for credential-looking upstream errors
(openai_runner.py line 269). -/
def API_KEY_INVALID_MSG : String :=
  "OpenAI API key is invalid or not configured. Please check OPENAI_API_KEY in environment variables."

/-- The tailored response for rate-limit-looking upstream errors
(openai_runner.py line 271). -/
def RATE_LIMIT_MSG : String :=
  "Too many requests. Please wait a moment and try again."

/-- The fixed system instruction (openai_runner.py lines 22-57; the source
constant continues with multilingual and tool-usage guidance whose text no
verified property inspects — only its identity as one fixed leading turn
matters). -/
def SYSTEM_PROMPT : String :=
  "You are a helpful, friendly AI assistant that can answer ANY question and also manage tasks."

/-- Python dict assignment `m[k] = v` on an argument object: overwrite the
entry if the key is present, append it otherwise. -/
def setKey (m : List (String × String)) (k v : String) : List (String × String) :=
  if m.any (fun p => p.1 == k) then
    m.map (fun p => if p.1 == k then (k, v) else p)
  else
    m ++ [(k, v)]

/-- Python dict lookup `m.get(k)` on an argument object. -/
def getKey (m : List (String × String)) (k : String) : Option String :=
  (m.find? (fun p => p.1 == k)).map Prod.snd

/-- The `except Exception` classifier of openai_runner.py lines 267-275:
inspect the lowercased message for known substrings, in source order, and
produce the user-facing response text. -/
def classifyError (error_msg : String) : String :=
  let lower := pyLower error_msg
  if pyContains lower "api_key" || pyContains lower "authentication" ||
      pyContains lower "invalid_api_key" then
    API_KEY_INVALID_MSG
  else if pyContains lower "rate_limit" then
    RATE_LIMIT_MSG
  else if pyContains lower "model" then
    "Model error: " ++ error_msg ++ ". Please check OPENAI_MODEL setting."
  else
    "Error: " ++ error_msg

/-- The two exception handlers at the bottom of `run` (openai_runner.py
lines 252-283): a `ValueError`'s message is returned verbatim as the
response; any other exception goes through `classifyError`.  `recs` is the
`tool_calls_record` list accumulated before the exception. -/
def handleExc (e : Exc) (recs : List ToolCallRecord) : AgentResult :=
  if e.isValueError then
    ⟨false, e.msg, recs, some e.msg, "en"⟩
  else
    ⟨false, classifyError e.msg, recs, some e.msg, "en"⟩

/-- Python's `content or fallback` on an optional string: `None` and `""`
are falsy. -/
def orFallback (content : Option String) (fb : String) : String :=
  match content with
  | none => fb
  | some s => if s == "" then fb else s

/-- The history filter of openai_runner.py line 140: role in
`["user", "assistant"]` and truthy (non-empty) content. -/
def keepTurn (m : Msg) : Bool :=
  (m.role == "user" || m.role == "assistant") && !(m.content == "")

/-- The prompt construction of openai_runner.py lines 134-141: start from
the fixed system turn, then walk `context.messages[-10:]` (the last ten
turns) appending every turn that passes the filter. -/
def buildMessages (history : List Msg) : List Msg :=
  (history.drop (history.length - 10)).foldl
    (fun acc m => if keepTurn m then acc ++ [m] else acc)
    [⟨"system", SYSTEM_PROMPT⟩]

/-- The prompt as the spec words it (section 4.2): one fixed system
instruction, followed by at most the last K=10 turns of the history —
truncation drops older turns first — keeping only turns with role user or
assistant and non-empty content, in original chronological order. -/
def promptSpec (history : List Msg) : List Msg :=
  ⟨"system", SYSTEM_PROMPT⟩ :: ((history.reverse.take 10).reverse.filter keepTurn)

/-- The audit record appended after a successful dispatch (openai_runner.py
lines 190-195): the tool name, the argument object minus the injected
`user_id`, the result, and the constant duration 0. -/
def mkRecord (name : String) (tool_args : List (String × String))
    (result : String) : ToolCallRecord :=
  ⟨name, tool_args.filter (fun p => p.1 != "user_id"), result, 0⟩

/-- The state accumulated by the tool-dispatch loop of openai_runner.py
lines 167-202: the `tool_results` list (one serialized output per completed
call, in order), the `tool_calls_record` list (successful dispatches only,
in order), the trace of argument objects actually handed to the MCP server,
and — when `json.loads` failed on some call — the `ValueError` message that
escaped the loop. -/
structure ExecState where
  results : List (String × ToolOutput)
  records : List ToolCallRecord
  dispatched : List (String × List (String × String))
  raised : Option String
  deriving Repr, DecidableEq

/-- The tool-dispatch loop (openai_runner.py lines 167-202), call by call in
model order.  `json.loads` sits outside the per-call `try`, so a malformed
argument payload raises past the loop, discarding the pending calls but
keeping the records accumulated so far; a dispatch failure is caught
per-call and becomes an error output. -/
def execToolCalls (env : Env) (uid : String) : List ToolCall → ExecState
  | [] => ⟨[], [], [], none⟩
  | tc :: rest =>
    match tc.arguments with
    | .error m => ⟨[], [], [], some m⟩
    | .ok args =>
      let tool_args := setKey args "user_id" uid
      match env.mcpCall tc.name tool_args uid with
      | .ok result =>
        let st := execToolCalls env uid rest
        ⟨(tc.id, .ok result) :: st.results,
          mkRecord tc.name tool_args result :: st.records,
          (tc.name, tool_args) :: st.dispatched,
          st.raised⟩
      | .error e =>
        let st := execToolCalls env uid rest
        ⟨(tc.id, .err e) :: st.results,
          st.records,
          (tc.name, tool_args) :: st.dispatched,
          st.raised⟩

/-- One call's contribution to `tool_calls_record`, stated directly: a
record exists exactly when the arguments parse and the dispatch succeeds. -/
def dispatchRecord (env : Env) (uid : String) (tc : ToolCall) :
    Option ToolCallRecord :=
  match tc.arguments with
  | .error _ => none
  | .ok args =>
    let tool_args := setKey args "user_id" uid
    match env.mcpCall tc.name tool_args uid with
    | .ok result => some (mkRecord tc.name tool_args result)
    | .error _ => none

/-- `OpenAIAgentRunner.run` (openai_runner.py lines 116-283) against an
environment.  The client is created first (raising the fixed `ValueError`
when the key is missing), then the first completion call; an empty
`tool_calls` list is the direct-answer branch, otherwise the dispatch loop
runs, the tool results are appended and the second completion call produces
the final text.  Both `except` handlers end in an `AgentResult`, never an
exception. -/
def run (env : Env) (context : AgentContext) (message : String) : AgentResult :=
  if env.apiKeyMissing then
    handleExc ⟨true, API_KEY_MISSING_MSG⟩ []
  else
    match env.firstCall with
    | .error e => handleExc e []
    | .ok assistant_message =>
      if assistant_message.tool_calls.isEmpty then
        ⟨true, orFallback assistant_message.content NO_TOOLS_FALLBACK, [], none, "en"⟩
      else
        let st := execToolCalls env context.user_id assistant_message.tool_calls
        match st.raised with
        | some m => ⟨false, m, st.records, some m, "en"⟩
        | none =>
          match env.secondCall with
          | .error e => handleExc e st.records
          | .ok content =>
            ⟨true, orFallback content TOOLS_FALLBACK, st.records, none, "en"⟩

/-- The backward scan of agent_interface.py lines 46-50: walk the history
in reverse, stop at the first user-role turn, and take its content (empty
when no user turn exists). -/
def lastUserContent (messages : List Msg) : String :=
  match messages.reverse.find? (fun m => m.role == "user") with
  | none => ""
  | some m => m.content

/-- `ChatAgentRunner.process` (agent_interface.py lines 32-72): build the
context, extract the latest user message, fail fast on a falsy one, then
run the loop on a worker with a 60-second budget; a timeout yields the
fixed message, otherwise the result's response text is returned.  (`run`
is total here, so the worker surfaces no exception of its own and the
final `except Exception` branch of the source is unreachable.) -/
def process (env : Env) (messages : List Msg) (user_id : String)
    (conversation_id : String) : String :=
  let context := AgentContext.from_request user_id conversation_id messages
  let last_message := lastUserContent messages
  if last_message == "" then
    NOT_UNDERSTOOD_MSG
  else if env.workerTimesOut then
    TIMEOUT_MSG
  else
    (run env context last_message).response

/-- The `ValueError`s that can escape into `run`'s verbatim handler carry a
non-empty `str(e)`: the fixed `_get_client` message, `json.JSONDecodeError`
messages, and any completion-call `ValueError` with a non-empty message.
This is the hypothesis under which every response is non-empty. -/
def Env.wellFormedVE (env : Env) : Prop :=
  (∀ e, env.firstCall = .error e → e.isValueError = true → e.msg ≠ "") ∧
  (∀ e, env.secondCall = .error e → e.isValueError = true → e.msg ≠ "") ∧
  (∀ am, env.firstCall = .ok am →
    ∀ tc ∈ am.tool_calls, ∀ m, tc.arguments = .error m → m ≠ "")

/-- A tool server that always succeeds, for concrete instantiations. -/
def mcpOk : String → List (String × String) → String → Except String String :=
  fun _ _ _ => .ok "created"

/-- A first-round response requesting one `add_task` call whose arguments
also smuggle a model-supplied `user_id`. -/
def amOneCall : AssistantMsg :=
  ⟨none, [⟨"call_1", "add_task", .ok [("title", "milk"), ("user_id", "999")]⟩]⟩

/-- A benign concrete environment: key present, one tool call requested,
dispatch succeeds, second call answers. -/
def envOk : Env :=
  { apiKeyMissing := false
    firstCall := .ok amOneCall
    mcpCall := mcpOk
    secondCall := .ok (some "Added!")
    workerTimesOut := false }

/-- An environment whose first completion call raises a `ValueError` with an
empty message. -/
def envEmptyVE : Env :=
  { envOk with firstCall := .error ⟨true, ""⟩ }

/-- An environment in which the requested tool call's dispatch fails. -/
def envToolFail : Env :=
  { envOk with mcpCall := fun _ _ _ => .error "Task not found" }

/-- A first-round response whose first call carries malformed JSON arguments
and whose second call is well-formed. -/
def amParseBad : AssistantMsg :=
  ⟨none, [⟨"call_1", "add_task", .error "Expecting value: line 1 column 1 (char 0)"⟩,
    ⟨"call_2", "list_tasks", .ok []⟩]⟩

/-- An environment in which the model sends one malformed and one
well-formed tool call. -/
def envParseBad : Env :=
  { envOk with firstCall := .ok amParseBad }

/-- An environment whose completion call fails with a message containing
both "api_key" and "rate_limit". -/
def envBothSubstr : Env :=
  { envOk with firstCall := .error ⟨false, "api_key rate_limit"⟩ }

/-- An environment whose first completion call fails with a pure
rate-limit message. -/
def envRateLimit : Env :=
  { envOk with firstCall := .error ⟨false, "Error 429: rate_limit exceeded"⟩ }

/-- An environment whose first completion call succeeds (one tool call is
dispatched) and whose second completion call fails with a pure rate-limit
message. -/
def envRateLimitSecond : Env :=
  { envOk with secondCall := .error ⟨false, "Error 429: rate_limit exceeded"⟩ }

/-- The context used by concrete instantiations. -/
def ctxMilk : AgentContext :=
  ⟨"7", "conv1", [⟨"user", "add milk"⟩]⟩

theorem append_ne_empty (s t : String) (h : s ≠ "") : s ++ t ≠ "" := by
  intro hc
  apply h
  have hd := congrArg String.data hc
  rw [String.data_append] at hd
  have hs : s.data = [] := (List.append_eq_nil.mp hd).1
  cases s
  simp_all

theorem classifyError_ne_empty (m : String) : classifyError m ≠ "" := by
  simp only [classifyError]
  split_ifs
  · decide
  · decide
  · exact append_ne_empty ("Model error: " ++ m) _ (append_ne_empty "Model error: " m (by decide))
  · exact append_ne_empty "Error: " m (by decide)

theorem orFallback_ne_empty (c : Option String) (fb : String) (h : fb ≠ "") :
    orFallback c fb ≠ "" := by
  cases c with
  | none => simpa [orFallback] using h
  | some s =>
    by_cases hs : s = ""
    · simpa [orFallback, hs] using h
    · simpa [orFallback, hs] using hs

theorem find?_map_overwrite (m : List (String × String)) (k v : String)
    (hany : m.any (fun p => p.1 == k) = true) :
    (m.map (fun p => if p.1 == k then (k, v) else p)).find? (fun p => p.1 == k) =
      some (k, v) := by
  induction m with
  | nil => simp at hany
  | cons p rest ih =>
    rw [List.map_cons]
    cases hp : (p.1 == k) with
    | true =>
      rw [if_pos rfl, List.find?_cons_of_pos _ (by simp)]
    | false =>
      rw [if_neg (by simp), List.find?_cons_of_neg _ (by simp [hp])]
      exact ih (by simpa [hp] using hany)

theorem getKey_setKey (m : List (String × String)) (k v : String) :
    getKey (setKey m k v) k = some v := by
  unfold setKey getKey
  by_cases hany : m.any (fun p => p.1 == k) = true
  · rw [if_pos hany, find?_map_overwrite m k v hany]
    rfl
  · rw [if_neg hany]
    have hnone : m.find? (fun p => p.1 == k) = none := by
      rw [List.find?_eq_none]
      intro x hx hc
      exact hany (List.any_eq_true.mpr ⟨x, hx, hc⟩)
    rw [List.find?_append, hnone]
    simp [List.find?]

theorem setKey_setKey (m : List (String × String)) (k v w : String) :
    setKey (setKey m k v) k w = setKey m k w := by
  by_cases hany : m.any (fun p => p.1 == k) = true
  · have hany2 : (m.map (fun p => if p.1 == k then (k, v) else p)).any
        (fun p => p.1 == k) = true := by
      rw [List.any_map]
      refine List.any_eq_true.mpr ?_
      obtain ⟨x, hx, hxk⟩ := List.any_eq_true.mp hany
      exact ⟨x, hx, by simp only [Function.comp]; rw [if_pos hxk]; simp⟩
    unfold setKey
    rw [if_pos hany, if_pos hany, if_pos hany2, List.map_map]
    refine List.map_congr_left ?_
    intro p _
    by_cases hp : p.1 == k
    · simp [Function.comp, hp]
    · simp [Function.comp, hp]
  · have hany2 : ((m ++ [(k, v)]).any (fun p => p.1 == k)) = true := by
      simp
    have hall : ∀ p ∈ m, (p.1 == k) = false := by
      intro p hp
      rcases Bool.eq_false_or_eq_true (p.1 == k) with hb | hb
      · exact absurd (List.any_eq_true.mpr ⟨p, hp, hb⟩) hany
      · exact hb
    unfold setKey
    rw [if_neg hany, if_neg hany, if_pos hany2, List.map_append]
    have hmap : m.map (fun p => if p.1 == k then (k, w) else p) = m := by
      have hid : m.map (fun p => if p.1 == k then (k, w) else p) = m.map id :=
        List.map_congr_left (fun p hp => by simp [hall p hp])
      rw [hid, List.map_id]
    rw [hmap]
    simp

theorem execToolCalls_cons_error (env : Env) (uid : String) (tc : ToolCall)
    (rest : List ToolCall) (m : String) (harg : tc.arguments = .error m) :
    execToolCalls env uid (tc :: rest) = ⟨[], [], [], some m⟩ := by
  simp [execToolCalls, harg]

theorem execToolCalls_cons_ok_success (env : Env) (uid : String) (tc : ToolCall)
    (rest : List ToolCall) (args : List (String × String)) (r : String)
    (harg : tc.arguments = .ok args)
    (hmcp : env.mcpCall tc.name (setKey args "user_id" uid) uid = .ok r) :
    execToolCalls env uid (tc :: rest) =
      ⟨(tc.id, .ok r) :: (execToolCalls env uid rest).results,
        mkRecord tc.name (setKey args "user_id" uid) r :: (execToolCalls env uid rest).records,
        (tc.name, setKey args "user_id" uid) :: (execToolCalls env uid rest).dispatched,
        (execToolCalls env uid rest).raised⟩ := by
  simp [execToolCalls, harg, hmcp]

theorem execToolCalls_cons_ok_failure (env : Env) (uid : String) (tc : ToolCall)
    (rest : List ToolCall) (args : List (String × String)) (e : String)
    (harg : tc.arguments = .ok args)
    (hmcp : env.mcpCall tc.name (setKey args "user_id" uid) uid = .error e) :
    execToolCalls env uid (tc :: rest) =
      ⟨(tc.id, .err e) :: (execToolCalls env uid rest).results,
        (execToolCalls env uid rest).records,
        (tc.name, setKey args "user_id" uid) :: (execToolCalls env uid rest).dispatched,
        (execToolCalls env uid rest).raised⟩ := by
  simp [execToolCalls, harg, hmcp]

theorem execToolCalls_raised_mem (env : Env) (uid : String) (calls : List ToolCall)
    (m : String) (h : (execToolCalls env uid calls).raised = some m) :
    ∃ tc ∈ calls, tc.arguments = Except.error m := by
  induction calls with
  | nil => simp [execToolCalls] at h
  | cons tc rest ih =>
    cases harg : tc.arguments with
    | error m2 =>
      rw [execToolCalls_cons_error env uid tc rest m2 harg] at h
      simp only [Option.some.injEq] at h
      exact ⟨tc, List.mem_cons_self tc rest, by rw [harg, h]⟩
    | ok args =>
      cases hmcp : env.mcpCall tc.name (setKey args "user_id" uid) uid with
      | ok r =>
        rw [execToolCalls_cons_ok_success env uid tc rest args r harg hmcp] at h
        obtain ⟨tc2, hm, ha⟩ := ih h
        exact ⟨tc2, List.mem_cons_of_mem tc hm, ha⟩
      | error e =>
        rw [execToolCalls_cons_ok_failure env uid tc rest args e harg hmcp] at h
        obtain ⟨tc2, hm, ha⟩ := ih h
        exact ⟨tc2, List.mem_cons_of_mem tc hm, ha⟩

theorem execToolCalls_duration (env : Env) (uid : String) (calls : List ToolCall) :
    ∀ r ∈ (execToolCalls env uid calls).records, r.duration_ms = 0 := by
  induction calls with
  | nil => simp [execToolCalls]
  | cons tc rest ih =>
    cases harg : tc.arguments with
    | error m => simp [execToolCalls_cons_error env uid tc rest m harg]
    | ok args =>
      cases hmcp : env.mcpCall tc.name (setKey args "user_id" uid) uid with
      | ok r =>
        rw [execToolCalls_cons_ok_success env uid tc rest args r harg hmcp]
        intro x hx
        rcases List.mem_cons.mp hx with hx | hx
        · subst hx; rfl
        · exact ih x hx
      | error e =>
        rw [execToolCalls_cons_ok_failure env uid tc rest args e harg hmcp]
        exact ih

theorem execToolCalls_dispatched_uid (env : Env) (uid : String) (calls : List ToolCall) :
    ∀ d ∈ (execToolCalls env uid calls).dispatched, getKey d.2 "user_id" = some uid := by
  induction calls with
  | nil => simp [execToolCalls]
  | cons tc rest ih =>
    cases harg : tc.arguments with
    | error m => simp [execToolCalls_cons_error env uid tc rest m harg]
    | ok args =>
      cases hmcp : env.mcpCall tc.name (setKey args "user_id" uid) uid with
      | ok r =>
        rw [execToolCalls_cons_ok_success env uid tc rest args r harg hmcp]
        intro x hx
        rcases List.mem_cons.mp hx with hx | hx
        · subst hx; exact getKey_setKey args "user_id" uid
        · exact ih x hx
      | error e =>
        rw [execToolCalls_cons_ok_failure env uid tc rest args e harg hmcp]
        intro x hx
        rcases List.mem_cons.mp hx with hx | hx
        · subst hx; exact getKey_setKey args "user_id" uid
        · exact ih x hx

theorem execToolCalls_parse_ok (env : Env) (uid : String) (calls : List ToolCall)
    (h : ∀ tc ∈ calls, tc.arguments.isOk = true) :
    (execToolCalls env uid calls).raised = none ∧
    (execToolCalls env uid calls).results.map Prod.fst = calls.map ToolCall.id ∧
    (execToolCalls env uid calls).records = calls.filterMap (dispatchRecord env uid) := by
  induction calls with
  | nil => simp [execToolCalls]
  | cons tc rest ih =>
    have htc := h tc (List.mem_cons_self tc rest)
    have hrest := ih (fun t ht => h t (List.mem_cons_of_mem tc ht))
    cases harg : tc.arguments with
    | error m =>
      rw [harg] at htc
      simp [Except.isOk, Except.toBool] at htc
    | ok args =>
      cases hmcp : env.mcpCall tc.name (setKey args "user_id" uid) uid with
      | ok r =>
        rw [execToolCalls_cons_ok_success env uid tc rest args r harg hmcp]
        refine ⟨hrest.1, ?_, ?_⟩
        · simp [hrest.2.1]
        · simp [List.filterMap_cons, dispatchRecord, harg, hmcp, hrest.2.2]
      | error e =>
        rw [execToolCalls_cons_ok_failure env uid tc rest args e harg hmcp]
        refine ⟨hrest.1, ?_, ?_⟩
        · simp [hrest.2.1]
        · simp [List.filterMap_cons, dispatchRecord, harg, hmcp, hrest.2.2]

theorem execToolCalls_append (env : Env) (uid : String) (l₁ l₂ : List ToolCall)
    (h : ∀ tc ∈ l₁, tc.arguments.isOk = true) :
    execToolCalls env uid (l₁ ++ l₂) =
      ⟨(execToolCalls env uid l₁).results ++ (execToolCalls env uid l₂).results,
        (execToolCalls env uid l₁).records ++ (execToolCalls env uid l₂).records,
        (execToolCalls env uid l₁).dispatched ++ (execToolCalls env uid l₂).dispatched,
        (execToolCalls env uid l₂).raised⟩ := by
  induction l₁ with
  | nil => rfl
  | cons tc rest ih =>
    have htc := h tc (List.mem_cons_self tc rest)
    have hih := ih (fun t ht => h t (List.mem_cons_of_mem tc ht))
    cases harg : tc.arguments with
    | error m =>
      rw [harg] at htc
      simp [Except.isOk, Except.toBool] at htc
    | ok args =>
      cases hmcp : env.mcpCall tc.name (setKey args "user_id" uid) uid with
      | ok r =>
        rw [List.cons_append,
          execToolCalls_cons_ok_success env uid tc (rest ++ l₂) args r harg hmcp,
          execToolCalls_cons_ok_success env uid tc rest args r harg hmcp, hih]
        simp
      | error e =>
        rw [List.cons_append,
          execToolCalls_cons_ok_failure env uid tc (rest ++ l₂) args e harg hmcp,
          execToolCalls_cons_ok_failure env uid tc rest args e harg hmcp, hih]
        simp

theorem foldl_filter_append (p : Msg → Bool) (l : List Msg) (init : List Msg) :
    l.foldl (fun acc m => if p m then acc ++ [m] else acc) init = init ++ l.filter p := by
  induction l generalizing init with
  | nil => simp
  | cons m rest ih =>
    by_cases hm : p m
    · simp [List.foldl_cons, hm, ih, List.filter_cons]
    · simp [List.foldl_cons, hm, ih, List.filter_cons]

theorem take_reverse_eq_drop (l : List Msg) (n : Nat) :
    (l.reverse.take n).reverse = l.drop (l.length - n) := by
  rw [List.reverse_take]
  simp

theorem lastUserContent_of_no_user (messages : List Msg)
    (h : ∀ m ∈ messages, m.role ≠ "user") : lastUserContent messages = "" := by
  unfold lastUserContent
  have hnone : messages.reverse.find? (fun m => m.role == "user") = none := by
    rw [List.find?_eq_none]
    intro x hx hc
    exact h x (List.mem_reverse.mp hx) (by simpa using hc)
  rw [hnone]

theorem lastUserContent_append_user (a b : List Msg) (u : Msg)
    (hu : u.role = "user") (hb : ∀ m ∈ b, m.role ≠ "user") :
    lastUserContent (a ++ u :: b) = u.content := by
  unfold lastUserContent
  have hbrev : b.reverse.find? (fun m => m.role == "user") = none := by
    rw [List.find?_eq_none]
    intro x hx hc
    exact hb x (List.mem_reverse.mp hx) (by simpa using hc)
  rw [List.reverse_append, List.reverse_cons, List.append_assoc,
    List.find?_append, hbrev]
  simp [List.find?, hu]

theorem handleExc_response_ne_empty (e : Exc) (recs : List ToolCallRecord)
    (hne : e.isValueError = true → e.msg ≠ "") :
    (handleExc e recs).response ≠ "" := by
  unfold handleExc
  split
  next hve => exact hne hve
  next => exact classifyError_ne_empty e.msg

theorem handleExc_language (e : Exc) (recs : List ToolCallRecord) :
    (handleExc e recs).language = "en" := by
  unfold handleExc
  split <;> rfl

theorem handleExc_tool_calls (e : Exc) (recs : List ToolCallRecord) :
    (handleExc e recs).tool_calls = recs := by
  unfold handleExc
  split <;> rfl

theorem handleExc_rate_limit (e : Exc) (recs : List ToolCallRecord)
    (hve : e.isValueError = false)
    (hrl : pyContains (pyLower e.msg) "rate_limit" = true)
    (hak : pyContains (pyLower e.msg) "api_key" = false)
    (hau : pyContains (pyLower e.msg) "authentication" = false)
    (hik : pyContains (pyLower e.msg) "invalid_api_key" = false) :
    handleExc e recs = ⟨false, RATE_LIMIT_MSG, recs, some e.msg, "en"⟩ := by
  unfold handleExc
  rw [if_neg (by simp [hve])]
  simp [classifyError, hak, hau, hik, hrl]

theorem run_key_missing (env : Env) (context : AgentContext) (message : String)
    (hkey : env.apiKeyMissing = true) :
    run env context message = handleExc ⟨true, API_KEY_MISSING_MSG⟩ [] := by
  simp [run, hkey]

theorem run_firstCall_error (env : Env) (context : AgentContext) (message : String)
    (e : Exc) (hkey : env.apiKeyMissing = false) (hfc : env.firstCall = .error e) :
    run env context message = handleExc e [] := by
  simp [run, hkey, hfc]

theorem run_no_tools (env : Env) (context : AgentContext) (message : String)
    (am : AssistantMsg) (hkey : env.apiKeyMissing = false)
    (hfc : env.firstCall = .ok am) (hemp : am.tool_calls.isEmpty = true) :
    run env context message =
      ⟨true, orFallback am.content NO_TOOLS_FALLBACK, [], none, "en"⟩ := by
  simp [run, hkey, hfc, hemp]

theorem run_raised (env : Env) (context : AgentContext) (message : String)
    (am : AssistantMsg) (m : String) (hkey : env.apiKeyMissing = false)
    (hfc : env.firstCall = .ok am)
    (hr : (execToolCalls env context.user_id am.tool_calls).raised = some m) :
    run env context message =
      ⟨false, m, (execToolCalls env context.user_id am.tool_calls).records,
        some m, "en"⟩ := by
  have hemp : am.tool_calls.isEmpty = false := by
    cases hc : am.tool_calls with
    | nil => rw [hc] at hr; simp [execToolCalls] at hr
    | cons a b => simp [hc]
  simp [run, hkey, hfc, hemp, hr]

theorem run_second_error (env : Env) (context : AgentContext) (message : String)
    (am : AssistantMsg) (e : Exc) (hkey : env.apiKeyMissing = false)
    (hfc : env.firstCall = .ok am) (hemp : am.tool_calls.isEmpty = false)
    (hr : (execToolCalls env context.user_id am.tool_calls).raised = none)
    (hsc : env.secondCall = .error e) :
    run env context message =
      handleExc e (execToolCalls env context.user_id am.tool_calls).records := by
  simp [run, hkey, hfc, hemp, hr, hsc]

theorem run_second_ok (env : Env) (context : AgentContext) (message : String)
    (am : AssistantMsg) (content : Option String) (hkey : env.apiKeyMissing = false)
    (hfc : env.firstCall = .ok am) (hemp : am.tool_calls.isEmpty = false)
    (hr : (execToolCalls env context.user_id am.tool_calls).raised = none)
    (hsc : env.secondCall = .ok content) :
    run env context message =
      ⟨true, orFallback content TOOLS_FALLBACK,
        (execToolCalls env context.user_id am.tool_calls).records, none, "en"⟩ := by
  simp [run, hkey, hfc, hemp, hr, hsc]

theorem run_response_ne_empty (env : Env) (context : AgentContext)
    (message : String) (h : env.wellFormedVE) :
    (run env context message).response ≠ "" := by
  rcases Bool.eq_false_or_eq_true env.apiKeyMissing with hkey | hkey
  · rw [run_key_missing env context message hkey]
    exact handleExc_response_ne_empty _ _ (fun _ => by decide)
  · cases hfc : env.firstCall with
    | error e =>
      rw [run_firstCall_error env context message e hkey hfc]
      exact handleExc_response_ne_empty _ _ (h.1 e hfc)
    | ok am =>
      rcases Bool.eq_false_or_eq_true am.tool_calls.isEmpty with hemp | hemp
      · rw [run_no_tools env context message am hkey hfc hemp]
        exact orFallback_ne_empty _ _ (by decide)
      · cases hr : (execToolCalls env context.user_id am.tool_calls).raised with
        | some m =>
          rw [run_raised env context message am m hkey hfc hr]
          obtain ⟨tc, hm, ha⟩ := execToolCalls_raised_mem env context.user_id
            am.tool_calls m hr
          exact h.2.2 am hfc tc hm m ha
        | none =>
          cases hsc : env.secondCall with
          | error e =>
            rw [run_second_error env context message am e hkey hfc hemp hr hsc]
            exact handleExc_response_ne_empty _ _ (h.2.1 e hsc)
          | ok content =>
            rw [run_second_ok env context message am content hkey hfc hemp hr hsc]
            exact orFallback_ne_empty _ _ (by decide)

/-- C1 (amended). `process` never raises — it is a total function into
`String` for every environment and input — and its result is non-empty
provided every `ValueError` that escapes to `run`'s verbatim handler (a
completion-call `ValueError` or a `json.loads` parse error) carries a
non-empty message.  The original claim's unconditional non-emptiness fails:
a `ValueError` with an empty `str(e)` is passed through verbatim as the
response. -/
theorem c1_process_never_raises_nonempty (env : Env) (messages : List Msg)
    (uid cid : String) (h : env.wellFormedVE) :
    process env messages uid cid ≠ "" := by
  by_cases hl : lastUserContent messages = ""
  · have hp : process env messages uid cid = NOT_UNDERSTOOD_MSG := by
      simp [process, hl]
    rw [hp]; decide
  · rcases Bool.eq_false_or_eq_true env.workerTimesOut with ht | ht
    · have hp : process env messages uid cid = TIMEOUT_MSG := by
        simp [process, hl, ht]
      rw [hp]; decide
    · have hp : process env messages uid cid =
          (run env ⟨uid, cid, messages⟩ (lastUserContent messages)).response := by
        simp [process, hl, ht, AgentContext.from_request]
      rw [hp]
      exact run_response_ne_empty env _ _ h

/-- C1 counterexample: with a completion call that raises a `ValueError`
whose message is empty, `process` returns the empty string, refuting the
unconditional "non-empty" part of the claim. -/
theorem c1_counterexample :
    process envEmptyVE [⟨"user", "hi"⟩] "7" "conv1" = "" := rfl

/-- C1 witness: a concrete well-formed environment on which the theorem
yields a non-empty response. -/
theorem c1_witness :
    envOk.wellFormedVE ∧ process envOk [⟨"user", "add milk"⟩] "7" "conv1" ≠ "" := by
  have hwf : envOk.wellFormedVE := by
    refine ⟨?_, ?_, ?_⟩
    · intro e he
      simp [envOk] at he
    · intro e he
      simp [envOk] at he
    · intro am ham tc htc m hm
      simp [envOk] at ham
      subst ham
      simp [amOneCall] at htc
      subst htc
      simp at hm
  exact ⟨hwf, c1_process_never_raises_nonempty envOk [⟨"user", "add milk"⟩] "7" "conv1" hwf⟩

/-- C2 (amended). When the key is present, the first response requests N
tool calls and every argument payload parses, the loop raises nothing, the
`tool_results` list appended before the second completion call has exactly
one entry per requested call id in request order (hence exactly N), and the
`ToolCallRecord` list — which is also what the returned `AgentResult`
carries — contains exactly the calls whose dispatch succeeded, in request
order.  The original claim's "exactly N ToolCallRecord entries" fails: a
call whose dispatch raises produces a tool-result message but no record. -/
theorem c2_tool_results_one_per_call (env : Env) (ctx : AgentContext)
    (msg : String) (am : AssistantMsg) (hkey : env.apiKeyMissing = false)
    (hfc : env.firstCall = .ok am)
    (hparse : ∀ tc ∈ am.tool_calls, tc.arguments.isOk = true) :
    (execToolCalls env ctx.user_id am.tool_calls).raised = none ∧
    (execToolCalls env ctx.user_id am.tool_calls).results.map Prod.fst =
      am.tool_calls.map ToolCall.id ∧
    (execToolCalls env ctx.user_id am.tool_calls).records =
      am.tool_calls.filterMap (dispatchRecord env ctx.user_id) ∧
    (run env ctx msg).tool_calls =
      (execToolCalls env ctx.user_id am.tool_calls).records := by
  obtain ⟨h1, h2, h3⟩ := execToolCalls_parse_ok env ctx.user_id am.tool_calls hparse
  refine ⟨h1, h2, h3, ?_⟩
  rcases Bool.eq_false_or_eq_true am.tool_calls.isEmpty with hemp | hemp
  · rw [run_no_tools env ctx msg am hkey hfc hemp]
    have hne : am.tool_calls = [] := by simpa using hemp
    rw [hne]
    rfl
  · cases hsc : env.secondCall with
    | error e =>
      rw [run_second_error env ctx msg am e hkey hfc hemp h1 hsc, handleExc_tool_calls]
    | ok c =>
      rw [run_second_ok env ctx msg am c hkey hfc hemp h1 hsc]

/-- C2 counterexample: one requested tool call whose dispatch fails yields
one tool-result message but zero `ToolCallRecord` entries in a turn that
still ends `success=true` — the claim's "exactly N ToolCallRecord entries"
is false for N = 1. -/
theorem c2_counterexample :
    amOneCall.tool_calls.length = 1 ∧
    (execToolCalls envToolFail "7" amOneCall.tool_calls).results.length = 1 ∧
    (run envToolFail ctxMilk "add milk").success = true ∧
    (run envToolFail ctxMilk "add milk").tool_calls.length = 0 :=
  ⟨rfl, rfl, rfl, rfl⟩

/-- C2 witness: on the benign environment the single requested call yields
one result message with its id and one record. -/
theorem c2_witness :
    (execToolCalls envOk ctxMilk.user_id amOneCall.tool_calls).results.map Prod.fst =
      ["call_1"] ∧
    (run envOk ctxMilk "add milk").tool_calls =
      [⟨"add_task", [("title", "milk")], "created", 0⟩] := by
  have h := c2_tool_results_one_per_call envOk ctxMilk "add milk" amOneCall rfl rfl
    (by intro tc htc; simp [amOneCall] at htc; subst htc; rfl)
  refine ⟨?_, ?_⟩
  · rw [h.2.1]
    rfl
  · rw [h.2.2.2]
    rfl

/-- C3 (amended). A malformed argument payload is NOT caught per-call: the
`json.loads` failure raises a `ValueError` past the loop, so the remaining
tool calls are not dispatched, no second completion call happens, and the
turn ends with `success=false` and the parse error message as the response
(keeping the records of the calls dispatched before the failure).  The
original claim (per-call recovery, remaining calls dispatched,
`success=true`) is refuted by the counterexample. -/
theorem c3_malformed_json_aborts (env : Env) (ctx : AgentContext) (msg : String)
    (am : AssistantMsg) (pre post : List ToolCall) (tc : ToolCall) (m : String)
    (hkey : env.apiKeyMissing = false) (hfc : env.firstCall = .ok am)
    (hsplit : am.tool_calls = pre ++ tc :: post)
    (hpre : ∀ p ∈ pre, p.arguments.isOk = true)
    (harg : tc.arguments = .error m) :
    run env ctx msg =
      ⟨false, m, (execToolCalls env ctx.user_id pre).records, some m, "en"⟩ := by
  have hstep : execToolCalls env ctx.user_id (tc :: post) = ⟨[], [], [], some m⟩ :=
    execToolCalls_cons_error env ctx.user_id tc post m harg
  have happ := execToolCalls_append env ctx.user_id pre (tc :: post) hpre
  rw [hstep] at happ
  have hr : (execToolCalls env ctx.user_id am.tool_calls).raised = some m := by
    rw [hsplit, happ]
  rw [run_raised env ctx msg am m hkey hfc hr, hsplit, happ]
  simp

/-- C3 counterexample: two requested calls, the first with malformed JSON
arguments and the second well-formed; nothing is dispatched, the turn ends
`success=false`, and the response is the raw parse error — refuting
per-call recovery, continued dispatch and `success=true`. -/
theorem c3_counterexample :
    (run envParseBad ctxMilk "add milk").success = false ∧
    (execToolCalls envParseBad "7" amParseBad.tool_calls).dispatched = [] ∧
    (run envParseBad ctxMilk "add milk").response =
      "Expecting value: line 1 column 1 (char 0)" :=
  ⟨rfl, rfl, rfl⟩

/-- C3 witness: the amended theorem instantiated on the concrete
malformed-then-well-formed call list. -/
theorem c3_witness :
    run envParseBad ctxMilk "add milk" =
      ⟨false, "Expecting value: line 1 column 1 (char 0)", [],
        some "Expecting value: line 1 column 1 (char 0)", "en"⟩ := by
  have h := c3_malformed_json_aborts envParseBad ctxMilk "add milk" amParseBad
    [] [⟨"call_2", "list_tasks", .ok []⟩]
    ⟨"call_1", "add_task", .error "Expecting value: line 1 column 1 (char 0)"⟩
    "Expecting value: line 1 column 1 (char 0)" rfl rfl rfl
    (by intro p hp; simp at hp) rfl
  simpa [execToolCalls] using h

/-- C4. Every argument object actually handed to the MCP server maps
`user_id` to the request context's actor id, and a model-supplied
`user_id` value has no effect at all: a call whose argument object carries
any smuggled `user_id` value dispatches identically to the same call
without it, because the caller's `tool_args["user_id"] = context.user_id`
overwrites it before dispatch. -/
theorem c4_actor_id_authoritative (env : Env) (uid : String)
    (calls : List ToolCall) (i n v : String) (args : List (String × String))
    (rest : List ToolCall) :
    (∀ d ∈ (execToolCalls env uid calls).dispatched,
      getKey d.2 "user_id" = some uid) ∧
    execToolCalls env uid (⟨i, n, .ok (setKey args "user_id" v)⟩ :: rest) =
      execToolCalls env uid (⟨i, n, .ok args⟩ :: rest) := by
  refine ⟨execToolCalls_dispatched_uid env uid calls, ?_⟩
  simp [execToolCalls, setKey_setKey]

/-- C4 witness: the dispatched argument object of the concrete call that
smuggled `user_id = "999"` carries the request's `"7"` instead. -/
theorem c4_witness :
    getKey (setKey [("title", "milk"), ("user_id", "999")] "user_id" "7")
      "user_id" = some "7" := by
  have h := (c4_actor_id_authoritative envOk "7" amOneCall.tool_calls
    "call_1" "add_task" "999" [("title", "milk")] []).1
  exact h ("add_task", setKey [("title", "milk"), ("user_id", "999")] "user_id" "7")
    (List.mem_singleton.mpr rfl)

/-- C5. A history with no user-authored turn makes `process` return the
fixed "didn't understand" fallback for every environment whatsoever — in
particular the result does not depend on the completion call's outcome, so
the completion API is never consulted. -/
theorem c5_no_user_turn_fallback (env : Env) (messages : List Msg)
    (uid cid : String) (h : ∀ m ∈ messages, m.role ≠ "user") :
    process env messages uid cid = NOT_UNDERSTOOD_MSG := by
  simp [process, lastUserContent_of_no_user messages h]

/-- C5 witness: an assistant-only history returns the fallback. -/
theorem c5_witness :
    process envOk [⟨"assistant", "hello"⟩] "7" "conv1" = NOT_UNDERSTOOD_MSG :=
  c5_no_user_turn_fallback envOk [⟨"assistant", "hello"⟩] "7" "conv1"
    (by intro m hm; simp at hm; subst hm; decide)

/-- C6. The prompt built for the first completion call equals the spec's
description: one fixed system instruction followed by at most the last 10
turns of the history (older turns dropped first), keeping only turns whose
role is user or assistant and whose content is non-empty, in original
chronological order. -/
theorem c6_prompt_refines_spec (history : List Msg) :
    buildMessages history = promptSpec history := by
  unfold buildMessages promptSpec
  rw [foldl_filter_append keepTurn, take_reverse_eq_drop]
  rfl

/-- C7 (amended). An exception that is not a `ValueError`, raised by either
completion call, whose lowercased message contains "rate_limit" and
contains none of "api_key", "authentication", "invalid_api_key", yields
`success=false` with the fixed rate-limit response: the first conjunct
settles a first-call failure, the second a second-call failure (first call
ok, its tool calls dispatched without a parse error, the result carrying
the accumulated records) — both paths land in the same handler at
openai_runner.py lines 263-283.  The original claim fails because the
credential check precedes the rate-limit check: a message containing both
"api_key" and "rate_limit" gets the API-key response, which does not
mention rate limiting (and a `ValueError`'s message is returned verbatim,
bypassing the classifier). -/
theorem c7_rate_limit_classified (env : Env) (ctx : AgentContext)
    (msg : String) (e : Exc) (hve : e.isValueError = false)
    (hrl : pyContains (pyLower e.msg) "rate_limit" = true)
    (hak : pyContains (pyLower e.msg) "api_key" = false)
    (hau : pyContains (pyLower e.msg) "authentication" = false)
    (hik : pyContains (pyLower e.msg) "invalid_api_key" = false) :
    (env.apiKeyMissing = false → env.firstCall = .error e →
      run env ctx msg = ⟨false, RATE_LIMIT_MSG, [], some e.msg, "en"⟩) ∧
    (∀ am, env.apiKeyMissing = false → env.firstCall = .ok am →
      am.tool_calls.isEmpty = false →
      (execToolCalls env ctx.user_id am.tool_calls).raised = none →
      env.secondCall = .error e →
      run env ctx msg = ⟨false, RATE_LIMIT_MSG,
        (execToolCalls env ctx.user_id am.tool_calls).records, some e.msg, "en"⟩) := by
  constructor
  · intro hkey hfc
    rw [run_firstCall_error env ctx msg e hkey hfc]
    exact handleExc_rate_limit e [] hve hrl hak hau hik
  · intro am hkey hfc hemp hraised hsc
    rw [run_second_error env ctx msg am e hkey hfc hemp hraised hsc]
    exact handleExc_rate_limit e _ hve hrl hak hau hik

/-- C7 counterexample: the upstream message "api_key rate_limit" contains
"rate_limit", yet the response is the API-key text, which never mentions
rate limiting (no "rate" substring) — refuting the claim as stated. -/
theorem c7_counterexample :
    pyContains (pyLower "api_key rate_limit") "rate_limit" = true ∧
    (run envBothSubstr ctxMilk "add milk").success = false ∧
    (run envBothSubstr ctxMilk "add milk").response = API_KEY_INVALID_MSG ∧
    pyContains (pyLower (run envBothSubstr ctxMilk "add milk").response)
      "rate" = false := by
  refine ⟨by decide, rfl, rfl, by decide⟩

/-- C7 witness: a pure rate-limit failure of the first completion call, and
one of the second completion call after a successful dispatch, each produce
the fixed rate-limit response with `success=false` (the latter keeping the
dispatch record). -/
theorem c7_witness :
    run envRateLimit ctxMilk "add milk" =
      ⟨false, RATE_LIMIT_MSG, [], some "Error 429: rate_limit exceeded", "en"⟩ ∧
    run envRateLimitSecond ctxMilk "add milk" =
      ⟨false, RATE_LIMIT_MSG, [⟨"add_task", [("title", "milk")], "created", 0⟩],
        some "Error 429: rate_limit exceeded", "en"⟩ := by
  constructor
  · exact (c7_rate_limit_classified envRateLimit ctxMilk "add milk"
      ⟨false, "Error 429: rate_limit exceeded"⟩ rfl
      (by decide) (by decide) (by decide) (by decide)).1 rfl rfl
  · have h := (c7_rate_limit_classified envRateLimitSecond ctxMilk "add milk"
      ⟨false, "Error 429: rate_limit exceeded"⟩ rfl
      (by decide) (by decide) (by decide) (by decide)).2
      amOneCall rfl rfl rfl rfl rfl
    exact h

/-- C9. When the most recent user-role turn has empty content, `process`
returns the fixed "didn't understand" fallback for every environment (the
loop is never invoked), even when earlier user-role turns with non-empty
content exist: the backward scan breaks at the first user-role turn
regardless of its content. -/
theorem c9_empty_latest_user_fallback (env : Env) (a b : List Msg)
    (uid cid : String) (hb : ∀ m ∈ b, m.role ≠ "user") :
    process env (a ++ ⟨"user", ""⟩ :: b) uid cid = NOT_UNDERSTOOD_MSG := by
  simp [process, lastUserContent_append_user a b ⟨"user", ""⟩ rfl hb]

/-- C9 witness: the history holds an earlier non-empty user turn, yet the
empty latest user turn forces the fallback. -/
theorem c9_witness :
    process envOk [⟨"user", "hello"⟩, ⟨"user", ""⟩, ⟨"assistant", "hi"⟩]
      "7" "conv1" = NOT_UNDERSTOOD_MSG :=
  c9_empty_latest_user_fallback envOk [⟨"user", "hello"⟩] [⟨"assistant", "hi"⟩]
    "7" "conv1" (by intro m hm; simp at hm; subst hm; decide)

/-- C10. Every `AgentResult` that `run` returns — success,
configuration-error and generic-exception paths alike — carries the
constant language tag "en", and every `ToolCallRecord` it contains carries
the constant `duration_ms = 0`; neither is ever measured or detected. -/
theorem c10_language_and_duration_constant (env : Env) (ctx : AgentContext)
    (msg : String) :
    (run env ctx msg).language = "en" ∧
    ∀ r ∈ (run env ctx msg).tool_calls, r.duration_ms = 0 := by
  rcases Bool.eq_false_or_eq_true env.apiKeyMissing with hkey | hkey
  · rw [run_key_missing env ctx msg hkey]
    refine ⟨handleExc_language _ _, ?_⟩
    rw [handleExc_tool_calls]
    intro r hr
    simp at hr
  · cases hfc : env.firstCall with
    | error e =>
      rw [run_firstCall_error env ctx msg e hkey hfc]
      refine ⟨handleExc_language _ _, ?_⟩
      rw [handleExc_tool_calls]
      intro r hr
      simp at hr
    | ok am =>
      rcases Bool.eq_false_or_eq_true am.tool_calls.isEmpty with hemp | hemp
      · rw [run_no_tools env ctx msg am hkey hfc hemp]
        exact ⟨rfl, by intro r hr; simp at hr⟩
      · cases hr : (execToolCalls env ctx.user_id am.tool_calls).raised with
        | some m =>
          rw [run_raised env ctx msg am m hkey hfc hr]
          exact ⟨rfl, execToolCalls_duration env ctx.user_id am.tool_calls⟩
        | none =>
          cases hsc : env.secondCall with
          | error e2 =>
            rw [run_second_error env ctx msg am e2 hkey hfc hemp hr hsc]
            refine ⟨handleExc_language _ _, ?_⟩
            rw [handleExc_tool_calls]
            exact execToolCalls_duration env ctx.user_id am.tool_calls
          | ok content =>
            rw [run_second_ok env ctx msg am content hkey hfc hemp hr hsc]
            exact ⟨rfl, execToolCalls_duration env ctx.user_id am.tool_calls⟩

/-- C10 witness: the benign run carries language "en" and its one record
has duration 0, obtained through the theorem at the concrete record. -/
theorem c10_witness :
    (run envOk ctxMilk "add milk").language = "en" ∧
    ToolCallRecord.duration_ms ⟨"add_task", [("title", "milk")], "created", 0⟩ = 0 := by
  refine ⟨(c10_language_and_duration_constant envOk ctxMilk "add milk").1, ?_⟩
  exact (c10_language_and_duration_constant envOk ctxMilk "add milk").2
    ⟨"add_task", [("title", "milk")], "created", 0⟩ (by decide)

end TodoAgent
